import Mathlib

/-!
# Verification of the SEC-XBRL financial-analysis pipeline

A shallow embedding of the core pipeline (`xbrl_normalize.py` and
`financials.py`) of the SEC-XBRL-Automated-Financial-Analysis-Reports
repository, together with proofs about the claims of its specification.

DataFrames are modelled as lists of typed rows; `pandas` timestamps are
modelled as civil dates with an explicit day-number conversion; numeric
values are rationals; missing values (`NaN`/`NaT`/`None`) are `Option`s.
-/

namespace SecXbrl

/-- A civil calendar date (year, month, day), standing in for a pandas
timestamp at day granularity. -/
structure Date where
  y : Int
  m : Int
  d : Int
deriving DecidableEq

/-- Day number of a civil date (days since 1970-01-01), the standard
civil-from-days conversion.  Used to model timestamp subtraction
(`(end - start).dt.days`) and timestamp ordering. -/
def Date.toDays (dt : Date) : Int :=
  let yy := if dt.m ≤ 2 then dt.y - 1 else dt.y
  let era := Int.fdiv yy 400
  let yoe := yy - era * 400
  let mp := Int.emod (dt.m + 9) 12
  let doy := Int.fdiv (153 * mp + 2) 5 + dt.d - 1
  let doe := yoe * 365 + Int.fdiv yoe 4 - Int.fdiv yoe 100 + doy
  era * 146097 + doe - 719468

/-- The later of two dates (pandas `max` on timestamps). -/
def Date.maxD (a b : Date) : Date :=
  if a.toDays < b.toDays then b else a

/-- One row of the normalized fact table (a row of the DataFrame produced
by `normalize_companyfacts_to_df`); the input row type of every later
pipeline stage.  Missing entries are `none`. -/
structure Fact where
  taxonomy : String
  concept : String
  label : String
  description : String
  unit : String
  value : Option ℚ
  start : Option Date
  «end» : Option Date
  fy : Option Int
  fp : Option String
  form : String
  filed : Option Date
  frame : Option String
  accn : Option String
  qtrs : Option Int
  has_dimensions : Bool
  period_type : String
deriving DecidableEq

/-! ## financials.py : ConceptSpec and config -/

/-- `financials.ConceptSpec`. -/
structure ConceptSpec where
  name : String
  candidates : List String
  unit : String := "USD"
  period_type : Option String := none
  forms : Option (List String) := none
deriving DecidableEq

/-- `financials.FinancialsConfig` (after `__post_init__`). -/
structure FinancialsConfig where
  forms_annual : List String := ["10-K"]
  last_n_years : Nat := 5
deriving DecidableEq

/-- `financials._filter_forms`: keep rows whose form is in the allow-set. -/
def _filter_forms (df : List Fact) (forms : List String) : List Fact :=
  df.filter (fun f => decide (f.form ∈ forms))

/-- `financials._filter_unit`. -/
def _filter_unit (df : List Fact) (unit : String) : List Fact :=
  df.filter (fun f => decide (f.unit = unit))

/-- `financials._filter_period_type`. -/
def _filter_period_type (df : List Fact) (period_type : Option String) : List Fact :=
  match period_type with
  | none => df
  | some pt => df.filter (fun f => decide (f.period_type = pt))

/-- `q == 4` for the coerced `qtrs` column (`NaN == 4` is `False`). -/
def is_q4 (f : Fact) : Bool :=
  match f.qtrs with
  | some q => decide (q = 4)
  | none => false

/-- `out["fp"].astype(str).str.upper() == "FY"`; a missing `fp` stringifies
to a non-`"FY"` value and never matches. -/
def fpIsFY (f : Fact) : Bool :=
  match f.fp with
  | some s => decide (s.toUpper = "FY")
  | none => false

/-- `(end - start).dt.days` between `330` and `400` inclusive; a row with a
missing bound has a missing span and fails the comparison. -/
def durInRange (f : Fact) : Bool :=
  match f.start, f.«end» with
  | some s, some e =>
      decide (330 ≤ e.toDays - s.toDays) && decide (e.toDays - s.toDays ≤ 400)
  | _, _ => false

/-- `financials._annualize_duration_series`: keep annual-like duration
facts.  Rule 1: rows with `qtrs == 4` when any exist; else rule 2: rows
with `fp == "FY"` when any exist; then, if any surviving row has a start
date, keep only rows whose `(end - start)` span is in `[330, 400]` days. -/
def _annualize_duration_series (d : List Fact) : List Fact :=
  if d.isEmpty then d
  else
    let q4 := d.filter is_q4
    let out :=
      if !q4.isEmpty then q4
      else
        let fy_rows := d.filter fpIsFY
        if !fy_rows.isEmpty then fy_rows else d
    if out.any (fun f => f.start.isSome) then out.filter durInRange else out

/-- A row surviving `dropna(subset=["fy", "end", "value"])`. -/
def validRow (f : Fact) : Bool :=
  f.fy.isSome && f.«end».isSome && f.value.isSome

/-- The `fy_int` column (meaningful on valid rows). -/
def fyv (f : Fact) : Int := f.fy.getD 0

/-- Day number of the `end` column (meaningful on valid rows). -/
def endDays (f : Fact) : Int := (f.«end».getD ⟨0, 1, 1⟩).toDays

/-- The `year_gap` column: `|end.dt.year - fy_int|`. -/
def yearGap (f : Fact) : Int := |(f.«end».getD ⟨0, 1, 1⟩).y - fyv f|

/-- The `dur_days` column: `(end - start).dt.days`, with `-1` where `start`
is missing. -/
def durDays (f : Fact) : Int :=
  match f.start with
  | some s => endDays f - s.toDays
  | none => -1

/-- Rank of the `filed` column for descending sort with missing values
last: present dates first (rank `0`), missing last (rank `1`). -/
def filedNoneRank (f : Fact) : Int :=
  match f.filed with
  | some _ => 0
  | none => 1

/-- Negated day number of `filed` (descending sort key; `0` when missing,
in which case `filedNoneRank` already separates). -/
def negFiledDays (f : Fact) : Int :=
  match f.filed with
  | some dt => -dt.toDays
  | none => 0

/-- Sort encoding of the `is_q4` column for a descending sort: `True`
first. -/
def q4Rank (f : Fact) : Int := if is_q4 f then 0 else 1

/-- The full sort key of `_select_best_row_per_fy`'s
`sort_values(["fy_int", "year_gap", "is_q4", "dur_days", "filed", "end"],
ascending=[True, True, False, False, False, False])`, encoded so that the
sort is ascending in every component. -/
def bestRowKey (f : Fact) : Int × Int × Int × Int × Int × Int × Int :=
  (fyv f, yearGap f, q4Rank f, -durDays f,
   filedNoneRank f, negFiledDays f, -endDays f)

/-- One lexicographic step: `x < y`, or `x = y` and the remaining
components decide. -/
def ile (x y : Int) (rest : Bool) : Bool :=
  decide (x < y) || (decide (x = y) && rest)

/-- Boolean lexicographic comparison of `bestRowKey`s. -/
def bestRowLe (a b : Fact) : Bool :=
  let k := bestRowKey a
  let l := bestRowKey b
  ile k.1 l.1 (ile k.2.1 l.2.1 (ile k.2.2.1 l.2.2.1 (ile k.2.2.2.1 l.2.2.2.1
    (ile k.2.2.2.2.1 l.2.2.2.2.1 (ile k.2.2.2.2.2.1 l.2.2.2.2.2.1
      (decide (k.2.2.2.2.2.2 ≤ l.2.2.2.2.2.2)))))))

/-- `drop_duplicates(subset=["fy_int"], keep="first")`: keep the first row
of each fiscal year, in order. -/
def dropDupFyKeepFirst : List Fact → List Int → List Fact
  | [], _ => []
  | f :: rest, seen =>
      if decide (fyv f ∈ seen) then dropDupFyKeepFirst rest seen
      else f :: dropDupFyKeepFirst rest (fyv f :: seen)

/-- `financials._select_best_row_per_fy`: drop rows missing `fy`, `end` or
`value`, sort by the best-row key, keep the first row per fiscal year. -/
def _select_best_row_per_fy (df : List Fact) : List Fact :=
  if df.isEmpty then df
  else
    let d := df.filter validRow
    if d.isEmpty then d
    else dropDupFyKeepFirst (d.mergeSort bestRowLe) []

/-- `financials.default_mvp_specs`. -/
def default_mvp_specs : List ConceptSpec :=
  [{ name := "revenue",
     candidates := ["RevenueFromContractWithCustomerExcludingAssessedTax",
                    "Revenues", "SalesRevenueNet"],
     unit := "USD", period_type := some "duration", forms := some ["10-K"] },
   { name := "gross_profit", candidates := ["GrossProfit"],
     unit := "USD", period_type := some "duration", forms := some ["10-K"] },
   { name := "operating_income", candidates := ["OperatingIncomeLoss"],
     unit := "USD", period_type := some "duration", forms := some ["10-K"] },
   { name := "net_income", candidates := ["NetIncomeLoss"],
     unit := "USD", period_type := some "duration", forms := some ["10-K"] },
   { name := "cfo",
     candidates := ["NetCashProvidedByUsedInOperatingActivities",
                    "NetCashProvidedByUsedInOperatingActivitiesContinuingOperations"],
     unit := "USD", period_type := some "duration", forms := some ["10-K"] },
   { name := "capex",
     candidates := ["PaymentsToAcquirePropertyPlantAndEquipment",
                    "PaymentsToAcquireProductiveAssets"],
     unit := "USD", period_type := some "duration", forms := some ["10-K"] },
   { name := "cash", candidates := ["CashAndCashEquivalentsAtCarryingValue"],
     unit := "USD", period_type := some "instant", forms := some ["10-K"] },
   { name := "equity", candidates := ["StockholdersEquity"],
     unit := "USD", period_type := some "instant", forms := some ["10-K"] }]

/-- `financials._prepare_base`: form, unit and period-type filters.  An
empty `forms` list is falsy in Python, so no form filter is applied. -/
def _prepare_base (df : List Fact) (spec : ConceptSpec) : List Fact :=
  let base :=
    match spec.forms with
    | some fs => if fs.isEmpty then df else _filter_forms df fs
    | none => df
  _filter_period_type (_filter_unit base spec.unit) spec.period_type

/-- `financials._extract_series_for_concept`: restrict to one concept, drop
rows with missing fields, annualize when the spec is a duration spec, then
keep the best row per fiscal year. -/
def _extract_series_for_concept (base : List Fact) (spec : ConceptSpec)
    (concept : String) : List Fact :=
  let d := base.filter (fun f => decide (f.concept = concept))
  let d := d.filter (fun f => f.value.isSome && f.«end».isSome)
  if d.isEmpty then d
  else
    let d := d.filter (fun f => f.fy.isSome)
    if d.isEmpty then d
    else
      let d :=
        if spec.period_type = some "duration" then _annualize_duration_series d
        else d
      _select_best_row_per_fy d

/-- Greatest element of a list of integers (meaningful on non-empty
lists), modelling pandas `max`. -/
def intMaxList : List Int → Int
  | [] => 0
  | x :: xs => xs.foldl max x

/-- The candidate score of `_choose_best_concept`: `(max fy, nunique fy,
max end)`, with the end date as its day number. -/
def scoreOf (d : List Fact) : Int × Int × Int :=
  (intMaxList (d.map fyv), ((d.map fyv).dedup).length, intMaxList (d.map endDays))

/-- Python tuple comparison `score > best_score` (strict lexicographic). -/
def scoreGt (a b : Int × Int × Int) : Bool :=
  decide (b.1 < a.1) ||
    (decide (a.1 = b.1) &&
      (decide (b.2.1 < a.2.1) ||
        (decide (a.2.1 = b.2.1) && decide (b.2.2 < a.2.2))))

/-- The candidate loop of `financials._choose_best_concept`: accumulator is
`(best_concept, best_df, best_score)`. -/
def _choose_best_concept_loop (base : List Fact) (spec : ConceptSpec) :
    List String → Option String × List Fact × Option (Int × Int × Int) →
    Option String × List Fact × Option (Int × Int × Int)
  | [], acc => acc
  | c :: rest, acc =>
      let d := _extract_series_for_concept base spec c
      if d.isEmpty then _choose_best_concept_loop base spec rest acc
      else
        let s := scoreOf d
        match acc with
        | (_, _, none) => _choose_best_concept_loop base spec rest (some c, d, some s)
        | (bc, bd, some bs) =>
            if scoreGt s bs then _choose_best_concept_loop base spec rest (some c, d, some s)
            else _choose_best_concept_loop base spec rest (bc, bd, some bs)

/-- `financials._choose_best_concept`: the candidate with the greatest
`(max fy, nunique fy, max end)` score; a later candidate replaces the
current best only on a strictly greater score. -/
def _choose_best_concept (base : List Fact) (spec : ConceptSpec) :
    Option String × List Fact :=
  let r := _choose_best_concept_loop base spec spec.candidates (none, [], none)
  (r.1, r.2.1)

/-- One row of the tidy series returned by `extract_annual_series`
(columns `fy`, `fiscal_year_end`, `value`, `concept_used`, `name`). -/
structure SRow where
  fy : Int
  fiscal_year_end : Date
  value : ℚ
  concept_used : String
  name : String
deriving DecidableEq

/-- `sort_values("fy", ascending=True)` comparison. -/
def fyLe (a b : Fact) : Bool := decide (fyv a ≤ fyv b)

/-- `financials.extract_annual_series`: choose the best candidate concept,
sort its series by fiscal year and keep the most recent `last_n_years`
rows (`tail`). -/
def extract_annual_series (df : List Fact) (spec : ConceptSpec)
    (last_n_years : Nat) : List SRow :=
  let base := _prepare_base df spec
  let r := _choose_best_concept base spec
  match r.1 with
  | none => []
  | some cu =>
      if r.2.isEmpty then []
      else
        let d := r.2.mergeSort fyLe
        let d := d.drop (d.length - last_n_years)
        d.map (fun f =>
          { fy := fyv f, fiscal_year_end := f.«end».getD ⟨0, 1, 1⟩,
            value := f.value.getD 0, concept_used := cu, name := spec.name })

/-! ## xbrl_normalize.py -/

/-- `xbrl_normalize.NormalizeConfig` (after `__post_init__`). -/
structure NormalizeConfig where
  taxonomy : String := "us-gaap"
  preferred_units : List String := ["USD", "shares", "pure"]
  keep_dimensions : Bool := false
  keep_forms : Option (List String) := none
deriving DecidableEq

/-- One raw observation record of the companyfacts store
(`{val, start?, end, fy, fp, form, filed, accn, qtrs?, dims?, frame?}`);
fields that fail lenient parsing are modelled as already missing. -/
structure RawItem where
  val : Option ℚ := none
  start : Option Date := none
  «end» : Option Date := none
  fy : Option Int := none
  fp : Option String := none
  form : Option String := none
  filed : Option Date := none
  frame : Option String := none
  accn : Option String := none
  qtrs : Option Int := none
  dims : Bool := false
deriving DecidableEq

/-- One concept object of the store: label, description and per-unit fact
lists. -/
structure ConceptObj where
  label : String := ""
  description : String := ""
  units : List (String × List RawItem) := []

/-- The nested companyfacts store: taxonomy name to concept map. -/
structure CompanyFacts where
  facts : List (String × List (String × ConceptObj)) := []

/-- `xbrl_normalize._as_str` applied to an optional field (`None` becomes
`""`). -/
def _as_str (x : Option String) : String := x.getD ""

/-- The flat fact table: the column list of the underlying DataFrame
together with its typed rows.  `pd.DataFrame([])` has no columns, so the
column list is data, not derived from the row type. -/
structure NormDF where
  cols : List String
  rows : List Fact

/-- The column set of a non-empty normalized fact table (the 17 columns,
`period_type` included). -/
def normalizedCols : List String :=
  ["taxonomy", "concept", "label", "description", "unit", "value", "start",
   "end", "fy", "fp", "form", "filed", "frame", "accn", "qtrs",
   "has_dimensions", "period_type"]

/-- `xbrl_normalize.normalize_companyfacts_to_df`: flatten the nested store
into rows, applying the form allow-list and the dimension drop; when the
row list is empty the early return `pd.DataFrame(rows)` produces a frame
with no columns, otherwise the date/numeric coercions and the derived
`period_type` column are applied. -/
def normalize_companyfacts_to_df (companyfacts : CompanyFacts)
    (cfg : NormalizeConfig) : NormDF :=
  let tax := (companyfacts.facts.lookup cfg.taxonomy).getD []
  let rows : List Fact := tax.flatMap (fun ct =>
    ct.2.units.flatMap (fun ul =>
      ul.2.filterMap (fun item =>
        let form := _as_str item.form
        if (match cfg.keep_forms with
            | some kf => decide (form ∉ kf)
            | none => false) then none
        else if item.dims && !cfg.keep_dimensions then none
        else
          some ({ taxonomy := cfg.taxonomy, concept := ct.1, label := ct.2.label,
                  description := ct.2.description, unit := ul.1,
                  value := item.val, start := item.start, «end» := item.«end»,
                  fy := item.fy, fp := item.fp, form := form,
                  filed := item.filed, frame := item.frame, accn := item.accn,
                  qtrs := item.qtrs, has_dimensions := item.dims,
                  period_type := "" } : Fact))))
  if rows.isEmpty then ⟨[], []⟩
  else
    ⟨normalizedCols,
     rows.map (fun f =>
       { f with period_type := if f.start.isNone then "instant" else "duration" })⟩

/-- `preferred_units.index(u) if u in preferred_units else 10_000`,
accumulator form. -/
def unitRankAux : List String → String → Nat → Nat
  | [], _, _ => 10000
  | p :: ps, u, i => if p = u then i else unitRankAux ps u (i + 1)

/-- The `unit_rank` column of `choose_preferred_unit`. -/
def unitRank (preferred : List String) (u : String) : Nat :=
  unitRankAux preferred u 0

/-- `groupby("concept")["unit_rank"].transform("min")`: the least unit rank
observed for a concept among the rank-filtered rows. -/
def minRankFor (df2 : List Fact) (preferred : List String) (c : String) : Nat :=
  ((df2.filter (fun f => decide (f.concept = c))).map
    (fun f => unitRank preferred f.unit)).foldr min 10000

/-- `xbrl_normalize.choose_preferred_unit`: drop rows in no preferred
unit, then keep per concept only the rows whose unit rank is that
concept's minimum. -/
def choose_preferred_unit (df : List Fact) (preferred_units : List String) :
    List Fact :=
  if df.isEmpty then df
  else
    let df2 := df.filter (fun f => decide (unitRank preferred_units f.unit < 10000))
    if df2.isEmpty then df2
    else
      df2.filter (fun f =>
        decide (unitRank preferred_units f.unit = minRankFor df2 preferred_units f.concept))

/-- `WithTop` view of an optional date by day number: missing dates sort
last (`na_position="last"`). -/
def optDays : Option Date → WithTop Int
  | some d => (d.toDays : Int)
  | none => ⊤

/-- `WithTop` view of an optional integer: missing values sort last. -/
def optInt : Option Int → WithTop Int
  | some n => (n : Int)
  | none => ⊤

/-- `WithTop` view of an optional string: missing values sort last. -/
def optStr : Option String → WithTop String
  | some s => s
  | none => ⊤

/-- The ascending sort key of `dedupe_keep_latest_filed`'s
`sort_values(["concept", "unit", "start", "end", "fy", "fp", "form",
"filed"])`, with missing values last. -/
def dedupeSortKey (f : Fact) :
    String ×ₗ String ×ₗ WithTop Int ×ₗ WithTop Int ×ₗ WithTop Int ×ₗ
      WithTop String ×ₗ String ×ₗ WithTop Int :=
  toLex (f.concept, toLex (f.unit, toLex (optDays f.start,
    toLex (optDays f.«end», toLex (optInt f.fy, toLex (optStr f.fp,
      toLex (f.form, optDays f.filed)))))))

/-- Boolean comparison for the dedupe sort. -/
def dedupeSortLe (a b : Fact) : Bool := decide (dedupeSortKey a ≤ dedupeSortKey b)

set_option synthInstance.maxSize 2000 in
instance :
    DecidableEq (String × String × Option Date × Option Date × Option Int ×
      Option String × String) :=
  fun a b => inferInstanceAs (Decidable (a = b))

/-- The duplicate-identity tuple `(concept, unit, start, end, fy, fp,
form)`; missing values compare equal, as in `drop_duplicates`. -/
def dedupeKey (f : Fact) :
    String × String × Option Date × Option Date × Option Int ×
      Option String × String :=
  (f.concept, f.unit, f.start, f.«end», f.fy, f.fp, f.form)

/-- `drop_duplicates(subset=key_cols, keep="last")`: keep a row exactly
when no later row shares its identity tuple, preserving order. -/
def dropDupKeepLast : List Fact → List Fact
  | [] => []
  | f :: rest =>
      if rest.any (fun g => decide (dedupeKey g = dedupeKey f)) then
        dropDupKeepLast rest
      else f :: dropDupKeepLast rest

/-- `xbrl_normalize.dedupe_keep_latest_filed`: sort ascending by the eight
columns (`filed` last) and keep the last row of each identity group. -/
def dedupe_keep_latest_filed (df : List Fact) : List Fact :=
  if df.isEmpty then df
  else dropDupKeepLast (df.mergeSort dedupeSortLe)

/-! ## financials.build_annual_financials_table -/

/-- The mandatory columns of the builder's structural precondition, in the
sorted order used by `sorted(missing)`. -/
def requiredColsSorted : List String :=
  ["concept", "end", "form", "period_type", "unit", "value"]

/-- One row of the wide annual table: the fiscal year, the per-metric
values present for it (pivot cells), the fiscal-year-end date, and the
derived columns (missing entries are `none`). -/
structure WideRow where
  fy : Int
  vals : List (String × ℚ)
  fiscal_year_end : Option Date
  fcf : Option ℚ
  revenue_yoy : Option ℚ
  gross_margin : Option ℚ
  operating_margin : Option ℚ
  net_margin : Option ℚ
  fcf_margin : Option ℚ
deriving DecidableEq

/-- The wide annual table: its metric value columns, its rows (ascending
by fiscal year), and the out-of-band `concept_map` attribute. -/
structure Wide where
  names : List String
  rows : List WideRow
  concept_map : List (String × String)
deriving DecidableEq

/-- Python dict assignment `m[k] = v` (overwrites in place, appends new
keys at the end). -/
def dictInsert (m : List (String × String)) (k v : String) :
    List (String × String) :=
  if m.any (fun p => decide (p.1 = k)) then
    m.map (fun p => if p.1 = k then (k, v) else p)
  else m ++ [(k, v)]

/-- The per-spec loop of `build_annual_financials_table`: collect the
non-empty series in order and record each spec's concept-usage entry
(the empty string when the series is empty). -/
def seriesAndMap (df : List Fact) (specs : List ConceptSpec) (n : Nat) :
    List (List SRow) × List (String × String) :=
  specs.foldl (fun acc spec =>
    let s := extract_annual_series df spec n
    if s.isEmpty then (acc.1, dictInsert acc.2 spec.name "")
    else
      (acc.1 ++ [s],
       dictInsert acc.2 spec.name ((s.getLast?.map (fun r => r.concept_used)).getD "")))
    ([], [])

/-- Insert a fiscal year into a sorted duplicate-free list. -/
def insertFy (y : Int) : List Int → List Int
  | [] => [y]
  | x :: xs =>
      if y < x then y :: x :: xs
      else if y = x then x :: xs
      else x :: insertFy y xs

/-- The sorted, duplicate-free fiscal-year index of the pivot table. -/
def sortedUniqueFys (l : List Int) : List Int := l.foldr insertFy []

/-- A pivot cell: `pivot_table(index="fy", columns="name", values="value",
aggfunc="last")` takes the last matching row of the long frame. -/
def pivotVal (long : List SRow) (y : Int) (n : String) : Option ℚ :=
  ((long.filter (fun r => decide (r.fy = y) && decide (r.name = n))).getLast?).map
    (fun r => r.value)

/-- `long.groupby("fy")["fiscal_year_end"].max()`. -/
def maxEndFor (long : List SRow) (y : Int) : Option Date :=
  (long.filter (fun r => decide (r.fy = y))).foldl
    (fun acc r =>
      match acc with
      | none => some r.fiscal_year_end
      | some a => some (a.maxD r.fiscal_year_end)) none

/-- One row of the wide table for fiscal year `y`, with `prevFy` the
fiscal year of the immediately preceding table row (`pct_change` divides
by the previous row's value).  Derived columns exist only when their
input columns exist; a missing input value yields a missing result. -/
def mkWideRow (long : List SRow) (names : List String) (prevFy : Option Int)
    (y : Int) : WideRow :=
  let fcf :=
    if decide ("cfo" ∈ names) && decide ("capex" ∈ names) then
      match pivotVal long y "cfo", pivotVal long y "capex" with
      | some a, some b => some (a - b)
      | _, _ => none
    else none
  { fy := y,
    vals := names.filterMap (fun n => (pivotVal long y n).map (fun q => (n, q))),
    fiscal_year_end := maxEndFor long y,
    fcf := fcf,
    revenue_yoy :=
      if decide ("revenue" ∈ names) then
        match prevFy with
        | none => none
        | some py =>
            match pivotVal long y "revenue", pivotVal long py "revenue" with
            | some a, some b => some (a / b - 1)
            | _, _ => none
      else none,
    gross_margin :=
      if decide ("gross_profit" ∈ names) && decide ("revenue" ∈ names) then
        match pivotVal long y "gross_profit", pivotVal long y "revenue" with
        | some a, some b => some (a / b)
        | _, _ => none
      else none,
    operating_margin :=
      if decide ("operating_income" ∈ names) && decide ("revenue" ∈ names) then
        match pivotVal long y "operating_income", pivotVal long y "revenue" with
        | some a, some b => some (a / b)
        | _, _ => none
      else none,
    net_margin :=
      if decide ("net_income" ∈ names) && decide ("revenue" ∈ names) then
        match pivotVal long y "net_income", pivotVal long y "revenue" with
        | some a, some b => some (a / b)
        | _, _ => none
      else none,
    fcf_margin :=
      if decide ("revenue" ∈ names) then
        match fcf, pivotVal long y "revenue" with
        | some a, some b => some (a / b)
        | _, _ => none
      else none }

/-- All rows of the wide table, one per fiscal year in ascending order,
threading the previous fiscal year for `pct_change`. -/
def mkRows (long : List SRow) (names : List String) :
    Option Int → List Int → List WideRow
  | _, [] => []
  | prev, y :: rest => mkWideRow long names prev y :: mkRows long names (some y) rest

/-- `financials.build_annual_financials_table`: raise (return `.error`)
when a mandatory column is missing; otherwise run the reconciliation per
spec, pivot to the wide fiscal-year table, and attach derived columns and
the concept-usage map.  When every series is empty the source returns a
bare `pd.DataFrame()` (no concept map attached). -/
def build_annual_financials_table (df : NormDF) (specs : List ConceptSpec)
    (cfg : FinancialsConfig) : Except (List String) Wide :=
  let missing := requiredColsSorted.filter (fun c => decide (c ∉ df.cols))
  if !missing.isEmpty then .error missing
  else
    let sm := seriesAndMap df.rows specs cfg.last_n_years
    if sm.1.isEmpty then .ok ⟨[], [], []⟩
    else
      let long := sm.1.flatten
      let names := (long.map (fun r => r.name)).dedup
      let fys := sortedUniqueFys (long.map (fun r => r.fy))
      .ok ⟨names, mkRows long names none fys, sm.2⟩

/-! ## Claim-side definitions and sample data -/

/-- The exclusive annualization rule as the spec words it: restrict to
`qtrs == 4` facts if any exist, else to `fp == "FY"` (case-insensitive)
facts if any exist, else keep the full set; never combine rules. -/
def annualizeRuleClaim (d : List Fact) : List Fact :=
  if d.any is_q4 then d.filter is_q4
  else if d.any fpIsFY then d.filter fpIsFY
  else d

/-- Annualization as the spec words it: the exclusive rule, then the
near-year-length span filter (330–400 days inclusive), skipped only when
no surviving fact has a usable start date. -/
def annualizeClaim (d : List Fact) : List Fact :=
  let s := annualizeRuleClaim d
  if s.any (fun f => f.start.isSome) then s.filter durInRange else s

/-- A well-formed annual duration fact used by the concrete scenarios. -/
def sampleFact : Fact :=
  { taxonomy := "us-gaap", concept := "Revenues", label := "", description := "",
    unit := "USD", value := some 100, start := some ⟨2021, 12, 31⟩,
    «end» := some ⟨2022, 12, 31⟩, fy := some 2022, fp := some "FY",
    form := "10-K", filed := some ⟨2023, 2, 1⟩, frame := none, accn := none,
    qtrs := some 4, has_dimensions := false, period_type := "duration" }

/-- Scenario fact: `qtrs = 4`, spanning 365 days, fiscal year 2022. -/
def factQ4_365 : Fact := sampleFact

/-- Scenario fact: `qtrs = 2`, spanning 181 days, fiscal year 2022. -/
def factQ2_181 : Fact :=
  { sampleFact with
    qtrs := some 2,
    fp := some "Q2",
    start := some ⟨2022, 7, 3⟩,
    value := some 50 }

/-- Candidate facts for the concept-selection scenarios: "Revenues" covers
fiscal years 2019–2020 only, "RevenuesFromContractWithCustomer" covers
2022–2023. -/
def factRev2019 : Fact :=
  { sampleFact with
    fy := some 2019,
    start := some ⟨2018, 12, 31⟩,
    «end» := some ⟨2019, 12, 31⟩,
    filed := some ⟨2020, 2, 1⟩ }

/-- Second "Revenues" fact, fiscal year 2020. -/
def factRev2020 : Fact :=
  { sampleFact with
    fy := some 2020,
    start := some ⟨2019, 12, 31⟩,
    «end» := some ⟨2020, 12, 31⟩,
    filed := some ⟨2021, 2, 1⟩,
    value := some 110 }

/-- "RevenuesFromContractWithCustomer" fact, fiscal year 2022. -/
def factRfc2022 : Fact :=
  { sampleFact with
    concept := "RevenuesFromContractWithCustomer",
    «end» := some ⟨2022, 12, 31⟩,
    value := some 200 }

/-- "RevenuesFromContractWithCustomer" fact, fiscal year 2023. -/
def factRfc2023 : Fact :=
  { sampleFact with
    concept := "RevenuesFromContractWithCustomer",
    fy := some 2023,
    start := some ⟨2022, 12, 31⟩,
    «end» := some ⟨2023, 12, 31⟩,
    filed := some ⟨2024, 2, 1⟩,
    value := some 220 }

/-- Revenue spec listing "Revenues" before
"RevenuesFromContractWithCustomer". -/
def specRevenueScenario : ConceptSpec :=
  { name := "revenue",
    candidates := ["Revenues", "RevenuesFromContractWithCustomer"],
    unit := "USD", period_type := some "duration", forms := some ["10-K"] }

/-- The prepared base table of the concept-selection scenario. -/
def scenarioBase : List Fact :=
  _prepare_base [factRev2019, factRev2020, factRfc2022, factRfc2023]
    specRevenueScenario

/-- Witness data for the tie-breaking scenario: both candidates cover
exactly fiscal year 2022 with the same end date, hence equal scores. -/
def tieSpec : ConceptSpec :=
  { name := "revenue",
    candidates := ["Revenues", "RevenuesFromContractWithCustomer"],
    unit := "USD", period_type := some "duration", forms := some ["10-K"] }

/-- The prepared base of the tie-breaking scenario. -/
def tieBase : List Fact := _prepare_base [sampleFact, factRfc2022] tieSpec

/-- Whether a builder result is the raised error. -/
def exceptIsError {ε α : Type} : Except ε α → Bool
  | .error _ => true
  | .ok _ => false

/-- The claim-side strict preference between two rows of one fiscal year
(criterion 4): `a`'s filing date strictly earlier than `b`'s, a missing
date earliest. -/
def filedLt (a b : Fact) : Prop :=
  match a.filed, b.filed with
  | none, some _ => True
  | some d1, some d2 => d1.toDays < d2.toDays
  | _, _ => False

/-- Equality of filing dates, missing equal to missing. -/
def filedEqv (a b : Fact) : Prop :=
  match a.filed, b.filed with
  | none, none => True
  | some d1, some d2 => d1.toDays = d2.toDays
  | _, _ => False

/-- The spec's stated total order on candidate rows of one fiscal year:
`claimPrefers a b` holds when `a` is strictly preferred to `b` —
smaller `|end-date year − fiscal year|` first, then `quarters = 4`
preferred, then longer `(end − start)` span (instants count as span −1),
then later filing date, then later end date. -/
def claimPrefers (a b : Fact) : Prop :=
  yearGap a < yearGap b ∨
  (yearGap a = yearGap b ∧
    ((is_q4 a = true ∧ is_q4 b = false) ∨
     (is_q4 a = is_q4 b ∧
       (durDays b < durDays a ∨
        (durDays a = durDays b ∧
          (filedLt b a ∨
           (filedEqv a b ∧ endDays b < endDays a)))))))

/-- Revenue fact for fiscal year 2021 (used with [[factRev2019]] to build a
table whose fiscal years are non-consecutive). -/
def factRev2021 : Fact :=
  { sampleFact with
    fy := some 2021,
    start := some ⟨2020, 12, 31⟩,
    «end» := some ⟨2021, 12, 31⟩,
    filed := some ⟨2022, 2, 1⟩,
    value := some 150 }

/-- A one-candidate revenue spec. -/
def specRevOnly : ConceptSpec :=
  { name := "revenue", candidates := ["Revenues"],
    unit := "USD", period_type := some "duration", forms := some ["10-K"] }

/-- Fact table whose revenue series covers fiscal years 2019 and 2021 but
not 2020. -/
def c5Df : NormDF := ⟨normalizedCols, [factRev2019, factRev2021]⟩

/-- The wide table of a successful build (sentinel empty table on the
error branch). -/
def buildOk (r : Except (List String) Wide) : Wide :=
  match r with
  | .ok w => w
  | .error _ => ⟨[], [], []⟩

/-- The non-consecutive-years annual table of the C5 counterexample. -/
def c5Wide : Wide := buildOk (build_annual_financials_table c5Df [specRevOnly] {})

/-- The amended per-adjacent-rows description of `revenue_yoy`
(`pct_change` semantics): each row's growth divides by the *previous
table row's* revenue — the previous fiscal year present in the table, not
necessarily fiscal year `t − 1`. -/
def yoyStep (names : List String) (a b : WideRow) : Prop :=
  b.revenue_yoy =
    if "revenue" ∈ names then
      match b.vals.lookup "revenue", a.vals.lookup "revenue" with
      | some x, some q => some (x / q - 1)
      | _, _ => none
    else none

/-! ## Theorems -/

/-- Python tuple `>` on scores, unfolded. -/
theorem scoreGt_iff (a b : Int × Int × Int) :
    scoreGt a b = true ↔
      (b.1 < a.1 ∨ (a.1 = b.1 ∧ (b.2.1 < a.2.1 ∨ (a.2.1 = b.2.1 ∧ b.2.2 < a.2.2)))) := by
  simp [scoreGt]

/-- `¬(b > a)` is transitive (it is lexicographic `≤`). -/
theorem scoreGt_false_trans {a b c : Int × Int × Int}
    (h1 : scoreGt a b = false) (h2 : scoreGt b c = false) :
    scoreGt a c = false := by
  rw [← Bool.not_eq_true] at h1 h2 ⊢
  rw [scoreGt_iff] at h1 h2 ⊢
  omega

/-- A score never strictly exceeds itself. -/
theorem scoreGt_irrefl (s : Int × Int × Int) : scoreGt s s = false := by
  rw [← Bool.not_eq_true, scoreGt_iff]
  omega

/-- If `s > bs` and `¬(s > t)` then `¬(bs > t)`. -/
theorem scoreGt_true_false {s bs t : Int × Int × Int}
    (h1 : scoreGt s bs = true) (h2 : scoreGt s t = false) :
    scoreGt bs t = false := by
  rw [scoreGt_iff] at h1
  rw [← Bool.not_eq_true] at h2 ⊢
  rw [scoreGt_iff] at h2 ⊢
  omega

/-- The candidate loop distributes over list append. -/
theorem choose_loop_append (base : List Fact) (spec : ConceptSpec)
    (xs ys : List String)
    (acc : Option String × List Fact × Option (Int × Int × Int)) :
    _choose_best_concept_loop base spec (xs ++ ys) acc =
      _choose_best_concept_loop base spec ys
        (_choose_best_concept_loop base spec xs acc) := by
  induction xs generalizing acc with
  | nil => rfl
  | cons c rest ih =>
      obtain ⟨bc, bd, bs⟩ := acc
      rw [List.cons_append]
      by_cases h : (_extract_series_for_concept base spec c).isEmpty
      · simp only [_choose_best_concept_loop, h, if_true]
        exact ih _
      · cases bs with
        | none =>
            simp only [_choose_best_concept_loop, h, Bool.false_eq_true, if_false]
            exact ih _
        | some s =>
            simp only [_choose_best_concept_loop, h, Bool.false_eq_true, if_false]
            by_cases hgt : scoreGt (scoreOf (_extract_series_for_concept base spec c)) s
            · simp only [hgt, if_true]
              exact ih _
            · simp only [hgt, Bool.false_eq_true, if_false]
              exact ih _

/-- Candidates with empty series leave the accumulator untouched. -/
theorem choose_loop_all_empty (base : List Fact) (spec : ConceptSpec)
    (cands : List String)
    (acc : Option String × List Fact × Option (Int × Int × Int))
    (h : ∀ c ∈ cands, _extract_series_for_concept base spec c = []) :
    _choose_best_concept_loop base spec cands acc = acc := by
  induction cands with
  | nil => rfl
  | cons c rest ih =>
      obtain ⟨bc, bd, bs⟩ := acc
      have hc : (_extract_series_for_concept base spec c).isEmpty := by
        rw [List.isEmpty_eq_true]
        exact h c (List.mem_cons_self c rest)
      simp only [_choose_best_concept_loop, hc, if_true]
      exact ih (fun c' hc' => h c' (List.mem_cons_of_mem c hc'))

/-- Invariant of the candidate loop from a `some` accumulator: the final
best score is never exceeded by the starting score nor by any processed
candidate's score, and the final best is either the starting accumulator
or one of the processed candidates together with its own series and
score. -/
theorem choose_loop_invariant (base : List Fact) (spec : ConceptSpec)
    (cands : List String) (bc : String) (bd : List Fact) (bs : Int × Int × Int) :
    ∃ c d s,
      _choose_best_concept_loop base spec cands (some bc, bd, some bs) =
        (some c, d, some s) ∧
      scoreGt bs s = false ∧
      (∀ c' ∈ cands, _extract_series_for_concept base spec c' ≠ [] →
        scoreGt (scoreOf (_extract_series_for_concept base spec c')) s = false) ∧
      ((c = bc ∧ d = bd ∧ s = bs) ∨
       (c ∈ cands ∧ d = _extract_series_for_concept base spec c ∧ s = scoreOf d)) := by
  induction cands generalizing bc bd bs with
  | nil =>
      exact ⟨bc, bd, bs, rfl, scoreGt_irrefl bs, by simp, Or.inl ⟨rfl, rfl, rfl⟩⟩
  | cons c0 rest ih =>
      by_cases h0 : (_extract_series_for_concept base spec c0).isEmpty
      · obtain ⟨c, d, s, hloop, hbs, hall, hdisj⟩ := ih bc bd bs
        refine ⟨c, d, s, ?_, hbs, ?_, ?_⟩
        · simp only [_choose_best_concept_loop, h0, if_true]
          exact hloop
        · intro c' hc' hne
          rcases List.mem_cons.mp hc' with rfl | hmem
          · exact absurd (List.isEmpty_eq_true.mp h0) hne
          · exact hall c' hmem hne
        · rcases hdisj with h | ⟨hmem, hrest⟩
          · exact Or.inl h
          · exact Or.inr ⟨List.mem_cons_of_mem _ hmem, hrest⟩
      · set d0 := _extract_series_for_concept base spec c0 with hd0
        by_cases hgt : scoreGt (scoreOf d0) bs
        · obtain ⟨c, d, s, hloop, hbs, hall, hdisj⟩ := ih c0 d0 (scoreOf d0)
          refine ⟨c, d, s, ?_, ?_, ?_, ?_⟩
          · simp only [_choose_best_concept_loop, h0, Bool.false_eq_true, if_false,
              ← hd0, hgt, if_true]
            exact hloop
          · exact scoreGt_true_false hgt hbs
          · intro c' hc' hne
            rcases List.mem_cons.mp hc' with rfl | hmem
            · exact hbs
            · exact hall c' hmem hne
          · rcases hdisj with ⟨rfl, rfl, rfl⟩ | ⟨hmem, hrest⟩
            · exact Or.inr ⟨List.mem_cons_self _ _, rfl, rfl⟩
            · exact Or.inr ⟨List.mem_cons_of_mem _ hmem, hrest⟩
        · obtain ⟨c, d, s, hloop, hbs, hall, hdisj⟩ := ih bc bd bs
          have hgtf : scoreGt (scoreOf d0) bs = false := by
            rwa [Bool.not_eq_true] at hgt
          refine ⟨c, d, s, ?_, hbs, ?_, ?_⟩
          · simp only [_choose_best_concept_loop, h0, Bool.false_eq_true, if_false,
              ← hd0, hgt, if_false]
            exact hloop
          · intro c' hc' hne
            rcases List.mem_cons.mp hc' with rfl | hmem
            · exact scoreGt_false_trans hgtf hbs
            · exact hall c' hmem hne
          · rcases hdisj with h | ⟨hmem, hrest⟩
            · exact Or.inl h
            · exact Or.inr ⟨List.mem_cons_of_mem _ hmem, hrest⟩

/-- Helper for C2: the embedded `_annualize_duration_series` coincides
with the spec-worded description. -/
theorem annualize_eq_claim (d : List Fact) :
    _annualize_duration_series d = annualizeClaim d := by
  by_cases hd : d = []
  · subst hd; rfl
  · unfold _annualize_duration_series annualizeClaim annualizeRuleClaim
    have hde : d.isEmpty = false := by
      simp only [List.isEmpty_eq_false_iff_exists_mem]
      exact List.exists_mem_of_ne_nil d hd
    rw [hde]
    simp only [Bool.false_eq_true, if_false]
    by_cases hq : d.any is_q4
    · have h1 : (d.filter is_q4).isEmpty = false := by
        obtain ⟨x, hx, hpx⟩ := List.any_eq_true.mp hq
        simp only [List.isEmpty_eq_false_iff_exists_mem]
        exact ⟨x, List.mem_filter.mpr ⟨hx, hpx⟩⟩
      simp [hq, h1]
    · have h1 : (d.filter is_q4).isEmpty = true := by
        simp only [List.isEmpty_eq_true, List.filter_eq_nil_iff]
        intro a ha hpa
        exact hq (List.any_eq_true.mpr ⟨a, ha, hpa⟩)
      by_cases hf : d.any fpIsFY
      · have h2 : (d.filter fpIsFY).isEmpty = false := by
          obtain ⟨x, hx, hpx⟩ := List.any_eq_true.mp hf
          simp only [List.isEmpty_eq_false_iff_exists_mem]
          exact ⟨x, List.mem_filter.mpr ⟨hx, hpx⟩⟩
        simp [hq, hf, h1, h2]
      · have h2 : (d.filter fpIsFY).isEmpty = true := by
          simp only [List.isEmpty_eq_true, List.filter_eq_nil_iff]
          intro a ha hpa
          exact hf (List.any_eq_true.mpr ⟨a, ha, hpa⟩)
        simp [hq, hf, h1, h2]

/-- C2: for every set of duration facts, annualization applies exactly one
of the ordered rules — `qtrs == 4` facts if any exist, else `fp == "FY"`
facts if any exist, else the full set — never combining rules, and then
restricts the surviving set to spans of 330–400 days inclusive whenever at
least one surviving fact has a usable start date, skipping the span filter
only when none has.  In particular, of two duration facts for fiscal year
2022 — one with `qtrs = 4` spanning 365 days, one with `qtrs = 2` spanning
181 days — only the `qtrs = 4` fact survives. -/
theorem c2_annualization_exclusive_rules :
    (∀ d : List Fact, _annualize_duration_series d = annualizeClaim d) ∧
    _annualize_duration_series [factQ4_365, factQ2_181] = [factQ4_365] :=
  ⟨annualize_eq_claim, by decide⟩

/-- A `some` accumulator survives the rest of the loop when no remaining
non-empty candidate scores strictly higher. -/
theorem choose_loop_no_improvement (base : List Fact) (spec : ConceptSpec)
    (cands : List String) (c : String) (d : List Fact) (s : Int × Int × Int)
    (h : ∀ c' ∈ cands, _extract_series_for_concept base spec c' ≠ [] →
      scoreGt (scoreOf (_extract_series_for_concept base spec c')) s = false) :
    _choose_best_concept_loop base spec cands (some c, d, some s) = (some c, d, some s) := by
  induction cands with
  | nil => rfl
  | cons c0 rest ih =>
      by_cases h0 : (_extract_series_for_concept base spec c0).isEmpty
      · simp only [_choose_best_concept_loop, h0, if_true]
        exact ih (fun c' hm => h c' (List.mem_cons_of_mem _ hm))
      · have hne : _extract_series_for_concept base spec c0 ≠ [] :=
          fun heq => h0 (List.isEmpty_eq_true.mpr heq)
        have hgt := h c0 (List.mem_cons_self _ _) hne
        simp only [_choose_best_concept_loop, h0, Bool.false_eq_true, if_false, hgt]
        exact ih (fun c' hm => h c' (List.mem_cons_of_mem _ hm))

/-- Decomposition of a candidate list at its first non-empty series. -/
theorem first_nonempty_split (base : List Fact) (spec : ConceptSpec) :
    ∀ cands : List String,
      (∀ c ∈ cands, _extract_series_for_concept base spec c = []) ∨
      ∃ l1 c1 l2, cands = l1 ++ c1 :: l2 ∧
        (∀ c ∈ l1, _extract_series_for_concept base spec c = []) ∧
        _extract_series_for_concept base spec c1 ≠ []
  | [] => Or.inl (by simp)
  | c :: rest => by
      by_cases hc : _extract_series_for_concept base spec c = []
      · rcases first_nonempty_split base spec rest with h | ⟨l1, c1, l2, heq, h1, h2⟩
        · refine Or.inl ?_
          intro x hx
          rcases List.mem_cons.mp hx with rfl | hm
          · exact hc
          · exact h x hm
        · refine Or.inr ⟨c :: l1, c1, l2, by rw [heq, List.cons_append], ?_, h2⟩
          intro x hx
          rcases List.mem_cons.mp hx with rfl | hm
          · exact hc
          · exact h1 x hm
      · exact Or.inr ⟨[], c, rest, rfl, by simp, hc⟩

/-- C10: when several candidates of a ConceptSpec tie on the
`(max fy, distinct-year count, max end)` score, the earliest candidate in
the ordered list is selected (a later candidate displaces it only with a
strictly greater score): if every candidate before `c1` has an empty
series, `c1`'s series is non-empty, and no later candidate scores
strictly higher, then `c1` is chosen with its own series. -/
theorem c10_earliest_candidate_on_ties :
    ∀ (base : List Fact) (spec : ConceptSpec) (l1 : List String) (c1 : String)
      (l2 : List String),
      spec.candidates = l1 ++ c1 :: l2 →
      (∀ c ∈ l1, _extract_series_for_concept base spec c = []) →
      _extract_series_for_concept base spec c1 ≠ [] →
      (∀ c ∈ l2, _extract_series_for_concept base spec c ≠ [] →
        scoreGt (scoreOf (_extract_series_for_concept base spec c))
          (scoreOf (_extract_series_for_concept base spec c1)) = false) →
      _choose_best_concept base spec =
        (some c1, _extract_series_for_concept base spec c1) := by
  intro base spec l1 c1 l2 hcands h1 h2 h3
  unfold _choose_best_concept
  rw [hcands, choose_loop_append, choose_loop_all_empty base spec l1 _ h1]
  have h0 : (_extract_series_for_concept base spec c1).isEmpty = false := by
    rw [List.isEmpty_eq_false_iff_exists_mem]
    exact List.exists_mem_of_ne_nil _ h2
  simp only [_choose_best_concept_loop, h0, Bool.false_eq_true, if_false]
  rw [choose_loop_no_improvement base spec l2 c1 _ _ h3]

unseal List.merge List.mergeSort in
/-- Witness for C10: with two equal-score candidates, the first one
("Revenues") is selected. -/
theorem c10_witness :
    _choose_best_concept tieBase tieSpec =
      (some "Revenues", _extract_series_for_concept tieBase tieSpec "Revenues") :=
  c10_earliest_candidate_on_ties tieBase tieSpec [] "Revenues"
    ["RevenuesFromContractWithCustomer"] rfl (by simp) (by decide) (by decide)

unseal List.merge List.mergeSort in
/-- C3: candidate selection runs annualization and best-row selection per
candidate (inside `_extract_series_for_concept`), scores each non-empty
candidate by `(max fy, distinct-year count, max end)`, and the selected
candidate is a candidate of the spec, is returned with its own series,
and is never strictly outscored by any non-empty candidate; in the
scenario where "Revenues" covers only through fiscal 2020 and
"RevenuesFromContractWithCustomer" through 2023, the latter is selected. -/
theorem c3_choose_best_concept_greatest_score :
    (∀ (base : List Fact) (spec : ConceptSpec) (c : String) (d : List Fact),
      _choose_best_concept base spec = (some c, d) →
      c ∈ spec.candidates ∧
      d = _extract_series_for_concept base spec c ∧
      ∀ c' ∈ spec.candidates, _extract_series_for_concept base spec c' ≠ [] →
        scoreGt (scoreOf (_extract_series_for_concept base spec c'))
          (scoreOf d) = false) ∧
    (_choose_best_concept scenarioBase specRevenueScenario).1 =
      some "RevenuesFromContractWithCustomer" := by
  constructor
  · intro base spec c d hch
    rcases first_nonempty_split base spec spec.candidates with hall | ⟨l1, c1, l2, heq, h1, h2⟩
    · rw [_choose_best_concept, choose_loop_all_empty base spec _ _ hall] at hch
      exact absurd (congrArg Prod.fst hch) (by simp)
    · obtain ⟨c'', d'', s'', hloop, hbs, hall2, hdisj⟩ :=
        choose_loop_invariant base spec l2 c1
          (_extract_series_for_concept base spec c1)
          (scoreOf (_extract_series_for_concept base spec c1))
      have h0 : (_extract_series_for_concept base spec c1).isEmpty = false := by
        rw [List.isEmpty_eq_false_iff_exists_mem]
        exact List.exists_mem_of_ne_nil _ h2
      have hch2 : _choose_best_concept base spec = (some c'', d'') := by
        unfold _choose_best_concept
        rw [heq, choose_loop_append, choose_loop_all_empty base spec l1 _ h1]
        simp only [_choose_best_concept_loop, h0, Bool.false_eq_true, if_false]
        rw [hloop]
      rw [hch] at hch2
      have hc : c = c'' := by
        have := congrArg Prod.fst hch2
        simpa using this
      have hd : d = d'' := by
        have := congrArg Prod.snd hch2
        simpa using this
      subst hc
      subst hd
      have hscore : s'' = scoreOf d := by
        rcases hdisj with ⟨_, hd1, hs1⟩ | ⟨_, hd1, hs1⟩
        · rw [hs1, hd1]
        · rw [hs1]
      constructor
      · rcases hdisj with ⟨hc1, _, _⟩ | ⟨hmem, _, _⟩
        · rw [heq, hc1]
          exact List.mem_append_right l1 (List.mem_cons_self _ _)
        · rw [heq]
          exact List.mem_append_right l1 (List.mem_cons_of_mem _ hmem)
      constructor
      · rcases hdisj with ⟨hc1, hd1, _⟩ | ⟨_, hd1, _⟩
        · rw [hd1, hc1]
        · exact hd1
      · intro c' hc' hne
        rw [← hscore]
        rw [heq] at hc'
        rcases List.mem_append.mp hc' with hm1 | hm2
        · exact absurd (h1 c' hm1) hne
        · rcases List.mem_cons.mp hm2 with rfl | hm3
          · exact hbs
          · exact hall2 c' hm3 hne
  · decide

unseal List.merge List.mergeSort in
/-- Witness for C3, applying the general statement to the concrete
scenario facts. -/
theorem c3_witness :
    _choose_best_concept scenarioBase specRevenueScenario =
      (some "RevenuesFromContractWithCustomer",
        _extract_series_for_concept scenarioBase specRevenueScenario
          "RevenuesFromContractWithCustomer") ∧
    ∀ c' ∈ specRevenueScenario.candidates,
      _extract_series_for_concept scenarioBase specRevenueScenario c' ≠ [] →
      scoreGt (scoreOf (_extract_series_for_concept scenarioBase specRevenueScenario c'))
        (scoreOf (_extract_series_for_concept scenarioBase specRevenueScenario
          "RevenuesFromContractWithCustomer")) = false := by
  have hch : _choose_best_concept scenarioBase specRevenueScenario =
      (some "RevenuesFromContractWithCustomer",
        _extract_series_for_concept scenarioBase specRevenueScenario
          "RevenuesFromContractWithCustomer") := by decide
  have h := c3_choose_best_concept_greatest_score.1 scenarioBase specRevenueScenario
    "RevenuesFromContractWithCustomer" _ hch
  exact ⟨hch, fun c' hm hne => h.2.2 c' hm hne⟩

/-- C6 (code evaluated at the failing input): on an empty source store the
normalizer's early return `pd.DataFrame(rows)` yields a frame with zero
rows but also an *empty* column list, not the documented full expected
column set — callers cannot treat "no data" like "zero rows". -/
theorem c6_empty_store_missing_columns :
    (normalize_companyfacts_to_df ⟨[]⟩ {}).rows = [] ∧
    (normalize_companyfacts_to_df ⟨[]⟩ {}).cols = [] ∧
    normalizedCols ≠ [] :=
  ⟨rfl, rfl, by decide⟩

/-- C4 (code evaluated at the failing input): for a fact store with zero
facts for the chosen taxonomy, normalization followed by annual-table
building *raises* (the empty frame has no columns, so the builder's
structural precondition fails on all six mandatory columns), instead of
producing a zero-row Annual Table. -/
theorem c4_empty_store_pipeline_raises :
    (normalize_companyfacts_to_df ⟨[]⟩ {}).rows = [] ∧
    build_annual_financials_table (normalize_companyfacts_to_df ⟨[]⟩ {})
        default_mvp_specs {} =
      Except.error ["concept", "end", "form", "period_type", "unit", "value"] :=
  ⟨rfl, rfl⟩

/-- A rank below the sentinel means the unit occurs in the preference
list. -/
theorem unitRankAux_found :
    ∀ (ps : List String) (u : String) (i : Nat),
      unitRankAux ps u i < 10000 → u ∈ ps
  | [], _, _, h => absurd h (by simp [unitRankAux])
  | p :: ps, u, i, h => by
      by_cases hp : p = u
      · exact hp ▸ List.mem_cons_self _ _
      · rw [unitRankAux, if_neg hp] at h
        exact List.mem_cons_of_mem _ (unitRankAux_found ps u (i + 1) h)

/-- The accumulator-form rank either hits the sentinel or is at least the
starting index. -/
theorem unitRankAux_ge :
    ∀ (ps : List String) (u : String) (i : Nat),
      unitRankAux ps u i = 10000 ∨ i ≤ unitRankAux ps u i
  | [], _, _ => Or.inl rfl
  | p :: ps, u, i => by
      by_cases hp : p = u
      · rw [unitRankAux, if_pos hp]
        exact Or.inr (Nat.le_refl i)
      · rw [unitRankAux, if_neg hp]
        rcases unitRankAux_ge ps u (i + 1) with h | h
        · exact Or.inl h
        · exact Or.inr (Nat.le_trans (Nat.le_succ i) h)

/-- Two units with the same sub-sentinel rank are the same unit. -/
theorem unitRankAux_inj :
    ∀ (ps : List String) (u v : String) (i : Nat),
      unitRankAux ps u i = unitRankAux ps v i →
      unitRankAux ps u i < 10000 → u = v
  | [], _, _, _, _, hlt => absurd hlt (by simp [unitRankAux])
  | p :: ps, u, v, i, heq, hlt => by
      by_cases hu : p = u <;> by_cases hv : p = v
      · rw [← hu, hv]
      · rw [unitRankAux, if_pos hu] at heq hlt
        rw [unitRankAux, if_neg hv] at heq
        rcases unitRankAux_ge ps v (i + 1) with h | h
        · omega
        · omega
      · rw [unitRankAux, if_neg hu] at heq hlt
        rw [unitRankAux, if_pos hv] at heq
        rcases unitRankAux_ge ps u (i + 1) with h | h
        · omega
        · omega
      · rw [unitRankAux, if_neg hu] at heq hlt
        rw [unitRankAux, if_neg hv] at heq
        exact unitRankAux_inj ps u v (i + 1) heq hlt

/-- `foldr min` is a lower bound of its list. -/
theorem foldr_min_le {b x : Nat} : ∀ {l : List Nat}, x ∈ l → l.foldr min b ≤ x
  | [], h => absurd h (List.not_mem_nil x)
  | a :: l, h => by
      rcases List.mem_cons.mp h with rfl | hm
      · exact Nat.min_le_left _ _
      · exact Nat.le_trans (Nat.min_le_right _ _) (foldr_min_le hm)

/-- Membership characterization of the preferred-unit step: a row
survives exactly when it is an input row, its unit rank beats the
sentinel, and its rank is its concept's minimum among rank-filtered
rows. -/
theorem mem_choose_preferred_unit (df : List Fact) (prefs : List String)
    (f : Fact) :
    f ∈ choose_preferred_unit df prefs ↔
      (f ∈ df ∧ unitRank prefs f.unit < 10000 ∧
        unitRank prefs f.unit =
          minRankFor (df.filter (fun x => decide (unitRank prefs x.unit < 10000)))
            prefs f.concept) := by
  unfold choose_preferred_unit
  by_cases hdf : df.isEmpty
  · rw [List.isEmpty_eq_true] at hdf
    subst hdf
    simp
  · rw [Bool.not_eq_true] at hdf
    rw [hdf]
    simp only [Bool.false_eq_true, if_false]
    by_cases h2 : (df.filter (fun x => decide (unitRank prefs x.unit < 10000))).isEmpty
    · rw [h2]
      simp only [if_true]
      rw [List.isEmpty_eq_true] at h2
      constructor
      · intro hmem
        rw [h2] at hmem
        exact absurd hmem (List.not_mem_nil f)
      · rintro ⟨hf, hrank, _⟩
        have : f ∈ df.filter (fun x => decide (unitRank prefs x.unit < 10000)) :=
          List.mem_filter.mpr ⟨hf, by simpa using hrank⟩
        rw [h2] at this
        exact absurd this (List.not_mem_nil f)
    · rw [Bool.not_eq_true] at h2
      rw [h2]
      simp only [Bool.false_eq_true, if_false]
      rw [List.mem_filter, List.mem_filter]
      constructor
      · rintro ⟨⟨hf, hr⟩, hmin⟩
        exact ⟨hf, by simpa using hr, by simpa using hmin⟩
      · rintro ⟨hf, hr, hmin⟩
        exact ⟨⟨hf, by simpa using hr⟩, by simpa using hmin⟩

/-- C8: the preferred-unit step emits only rows whose unit is in the
preference list; per concept all surviving rows share a single unit, the
one of minimum preference-list rank observed for that concept; empty
input gives empty output. -/
theorem c8_preferred_unit_invariants :
    ∀ (df : List Fact) (preferred : List String),
      (∀ f ∈ choose_preferred_unit df preferred, f.unit ∈ preferred) ∧
      (∀ f ∈ choose_preferred_unit df preferred,
        ∀ g ∈ choose_preferred_unit df preferred,
          f.concept = g.concept → f.unit = g.unit) ∧
      (∀ f ∈ choose_preferred_unit df preferred, ∀ g ∈ df,
        g.concept = f.concept → unitRank preferred g.unit < 10000 →
          unitRank preferred f.unit ≤ unitRank preferred g.unit) ∧
      (df = [] → choose_preferred_unit df preferred = []) := by
  intro df preferred
  refine ⟨?_, ?_, ?_, ?_⟩
  · intro f hf
    obtain ⟨_, hrank, _⟩ := (mem_choose_preferred_unit df preferred f).mp hf
    exact unitRankAux_found preferred f.unit 0 hrank
  · intro f hf g hg hconcept
    obtain ⟨_, hrankf, hminf⟩ := (mem_choose_preferred_unit df preferred f).mp hf
    obtain ⟨_, hrankg, hming⟩ := (mem_choose_preferred_unit df preferred g).mp hg
    have : unitRank preferred f.unit = unitRank preferred g.unit := by
      rw [hminf, hming, hconcept]
    exact unitRankAux_inj preferred f.unit g.unit 0 this hrankf
  · intro f hf g hg hconcept hrankg
    obtain ⟨_, hrankf, hminf⟩ := (mem_choose_preferred_unit df preferred f).mp hf
    have hgmem : g ∈ df.filter (fun x => decide (unitRank preferred x.unit < 10000)) :=
      List.mem_filter.mpr ⟨hg, by simpa using hrankg⟩
    have : minRankFor (df.filter (fun x => decide (unitRank preferred x.unit < 10000)))
        preferred f.concept ≤ unitRank preferred g.unit := by
      apply foldr_min_le
      rw [List.mem_map]
      exact ⟨g, List.mem_filter.mpr ⟨hgmem, by simpa using hconcept⟩, rfl⟩
    rw [hminf]
    exact this
  · intro h
    subst h
    rfl

/-- Witness for C8, at a concrete two-concept table where a shares-only
concept keeps shares and a mixed concept keeps only USD. -/
theorem c8_witness :
    (∀ f ∈ choose_preferred_unit [sampleFact] ["USD", "shares", "pure"],
      f.unit ∈ ["USD", "shares", "pure"]) ∧
    choose_preferred_unit [sampleFact] ["USD", "shares", "pure"] = [sampleFact] :=
  ⟨(c8_preferred_unit_invariants [sampleFact] ["USD", "shares", "pure"]).1,
   by decide⟩

/-- The dedupe sort comparison is transitive. -/
theorem dedupeSortLe_trans (a b c : Fact) (h1 : dedupeSortLe a b)
    (h2 : dedupeSortLe b c) : dedupeSortLe a c := by
  unfold dedupeSortLe at *
  exact decide_eq_true (le_trans (of_decide_eq_true h1) (of_decide_eq_true h2))

/-- The dedupe sort comparison is total. -/
theorem dedupeSortLe_total (a b : Fact) : dedupeSortLe a b || dedupeSortLe b a := by
  unfold dedupeSortLe
  rcases le_total (dedupeSortKey a) (dedupeSortKey b) with h | h
  · simp [h]
  · simp [h]

/-- `drop_duplicates(keep="last")` yields a sublist of its input. -/
theorem dropDupKeepLast_sublist : ∀ l : List Fact, List.Sublist (dropDupKeepLast l) l
  | [] => List.Sublist.refl []
  | f :: rest => by
      by_cases h : rest.any (fun g => decide (dedupeKey g = dedupeKey f))
      · rw [dropDupKeepLast, if_pos h]
        exact List.Sublist.cons f (dropDupKeepLast_sublist rest)
      · rw [dropDupKeepLast, if_neg h]
        exact List.Sublist.cons₂ f (dropDupKeepLast_sublist rest)

/-- After `drop_duplicates(keep="last")`, all identity tuples are
pairwise distinct: each group keeps exactly one row. -/
theorem dropDupKeepLast_pairwise : ∀ l : List Fact,
    (dropDupKeepLast l).Pairwise (fun a b => dedupeKey a ≠ dedupeKey b)
  | [] => List.Pairwise.nil
  | f :: rest => by
      by_cases h : rest.any (fun g => decide (dedupeKey g = dedupeKey f))
      · rw [dropDupKeepLast, if_pos h]
        exact dropDupKeepLast_pairwise rest
      · rw [dropDupKeepLast, if_neg h]
        refine List.Pairwise.cons ?_ (dropDupKeepLast_pairwise rest)
        intro g hg hEq
        apply h
        rw [List.any_eq_true]
        exact ⟨g, (dropDupKeepLast_sublist rest).subset hg, by simp [hEq]⟩

/-- On a list with pairwise-distinct identity tuples,
`drop_duplicates(keep="last")` removes nothing. -/
theorem dropDupKeepLast_of_pairwise : ∀ l : List Fact,
    l.Pairwise (fun a b => dedupeKey a ≠ dedupeKey b) → dropDupKeepLast l = l
  | [], _ => rfl
  | f :: rest, h => by
      rcases List.pairwise_cons.mp h with ⟨hf, hrest⟩
      have hany : ¬ rest.any (fun g => decide (dedupeKey g = dedupeKey f)) = true := by
        intro habs
        rw [List.any_eq_true] at habs
        obtain ⟨g, hg, hgq⟩ := habs
        have := of_decide_eq_true hgq
        exact hf g hg this.symm
      rw [dropDupKeepLast, if_neg hany]
      rw [dropDupKeepLast_of_pairwise rest hrest]

/-- C9: latest-filed deduplication is idempotent — a second application
changes nothing, because after one pass every `(concept, unit, start,
end, fy, fp, form)` identity group holds exactly one row (the pairwise
distinctness conjunct). -/
theorem c9_dedupe_idempotent : ∀ df : List Fact,
    dedupe_keep_latest_filed (dedupe_keep_latest_filed df) =
      dedupe_keep_latest_filed df ∧
    (dedupe_keep_latest_filed df).Pairwise
      (fun a b => dedupeKey a ≠ dedupeKey b) := by
  intro df
  by_cases hdf : df.isEmpty
  · rw [List.isEmpty_eq_true] at hdf
    subst hdf
    exact ⟨rfl, List.Pairwise.nil⟩
  · rw [Bool.not_eq_true] at hdf
    have h1 : dedupe_keep_latest_filed df = dropDupKeepLast (df.mergeSort dedupeSortLe) := by
      unfold dedupe_keep_latest_filed
      rw [hdf]
      simp
    constructor
    · rw [h1]
      by_cases hl1e : (dropDupKeepLast (df.mergeSort dedupeSortLe)).isEmpty
      · unfold dedupe_keep_latest_filed
        rw [hl1e]
        simp
      · rw [Bool.not_eq_true] at hl1e
        have hsorted : (dropDupKeepLast (df.mergeSort dedupeSortLe)).Pairwise
            (fun a b => dedupeSortLe a b) := by
          apply List.Pairwise.sublist (dropDupKeepLast_sublist _)
          exact List.sorted_mergeSort dedupeSortLe_trans dedupeSortLe_total df
        have hms : (dropDupKeepLast (df.mergeSort dedupeSortLe)).mergeSort dedupeSortLe =
            dropDupKeepLast (df.mergeSort dedupeSortLe) :=
          List.mergeSort_of_sorted hsorted
        unfold dedupe_keep_latest_filed
        rw [hl1e]
        simp only [Bool.false_eq_true, if_false]
        rw [hms]
        exact dropDupKeepLast_of_pairwise _ (dropDupKeepLast_pairwise _)
    · rw [h1]
      exact dropDupKeepLast_pairwise _

/-- The best-row comparison, unfolded to arithmetic. -/
theorem bestRowLe_iff (a b : Fact) :
    bestRowLe a b = true ↔
      (fyv a < fyv b ∨ (fyv a = fyv b ∧
        (yearGap a < yearGap b ∨ (yearGap a = yearGap b ∧
          (q4Rank a < q4Rank b ∨ (q4Rank a = q4Rank b ∧
            (-durDays a < -durDays b ∨ (-durDays a = -durDays b ∧
              (filedNoneRank a < filedNoneRank b ∨ (filedNoneRank a = filedNoneRank b ∧
                (negFiledDays a < negFiledDays b ∨ (negFiledDays a = negFiledDays b ∧
                  -endDays a ≤ -endDays b)))))))))))) := by
  simp [bestRowLe, bestRowKey, ile]

/-- The best-row comparison is transitive. -/
theorem bestRowLe_trans (a b c : Fact) (h1 : bestRowLe a b) (h2 : bestRowLe b c) :
    bestRowLe a c := by
  rw [bestRowLe_iff] at h1 h2 ⊢
  omega

/-- The best-row comparison is total. -/
theorem bestRowLe_total (a b : Fact) : bestRowLe a b || bestRowLe b a := by
  rw [Bool.or_eq_true, bestRowLe_iff, bestRowLe_iff]
  omega

/-- The best-row comparison is reflexive. -/
theorem bestRowLe_refl (a : Fact) : bestRowLe a a := by
  rw [bestRowLe_iff]
  omega

/-- Rows produced by the first-per-fiscal-year filter avoid the `seen`
set. -/
theorem dropDupFy_not_seen :
    ∀ (l : List Fact) (seen : List Int) (x : Fact),
      x ∈ dropDupFyKeepFirst l seen → fyv x ∉ seen
  | [], _, _, h => absurd h (List.not_mem_nil _)
  | f :: rest, seen, x, h => by
      by_cases hf : fyv f ∈ seen
      · rw [dropDupFyKeepFirst, if_pos (decide_eq_true hf)] at h
        exact dropDupFy_not_seen rest seen x h
      · rw [dropDupFyKeepFirst,
          if_neg (fun hd => hf (of_decide_eq_true hd))] at h
        rcases List.mem_cons.mp h with rfl | hm
        · exact hf
        · have := dropDupFy_not_seen rest (fyv f :: seen) x hm
          exact fun hx => this (List.mem_cons_of_mem _ hx)

/-- The first-per-fiscal-year filter yields a subset of its input. -/
theorem dropDupFy_subset :
    ∀ (l : List Fact) (seen : List Int) (x : Fact),
      x ∈ dropDupFyKeepFirst l seen → x ∈ l
  | [], _, _, h => absurd h (List.not_mem_nil _)
  | f :: rest, seen, x, h => by
      by_cases hf : fyv f ∈ seen
      · rw [dropDupFyKeepFirst, if_pos (decide_eq_true hf)] at h
        exact List.mem_cons_of_mem _ (dropDupFy_subset rest seen x h)
      · rw [dropDupFyKeepFirst,
          if_neg (fun hd => hf (of_decide_eq_true hd))] at h
        rcases List.mem_cons.mp h with rfl | hm
        · exact List.mem_cons_self _ _
        · exact List.mem_cons_of_mem _ (dropDupFy_subset rest _ x hm)

/-- A fiscal year already seen contributes no rows. -/
theorem dropDupFy_countP_zero (y : Int) :
    ∀ (l : List Fact) (seen : List Int), y ∈ seen →
      List.countP (fun r => decide (fyv r = y)) (dropDupFyKeepFirst l seen) = 0 := by
  intro l seen hy
  rw [List.countP_eq_zero]
  intro x hx
  simp only [decide_eq_true_eq]
  intro hEq
  exact dropDupFy_not_seen l seen x hx (hEq ▸ hy)

/-- A fiscal year present in the input and not yet seen contributes
exactly one row. -/
theorem dropDupFy_countP_one (y : Int) :
    ∀ (l : List Fact) (seen : List Int), y ∉ seen →
      (∃ x ∈ l, fyv x = y) →
      List.countP (fun r => decide (fyv r = y)) (dropDupFyKeepFirst l seen) = 1
  | [], _, _, hex => absurd hex (by simp)
  | f :: rest, seen, hy, hex => by
      by_cases hf : fyv f ∈ seen
      · rw [dropDupFyKeepFirst, if_pos (decide_eq_true hf)]
        have hex' : ∃ x ∈ rest, fyv x = y := by
          rcases hex with ⟨x, hx, hxy⟩
          rcases List.mem_cons.mp hx with rfl | hm
          · exact absurd (hxy ▸ hf) hy
          · exact ⟨x, hm, hxy⟩
        exact dropDupFy_countP_one y rest seen hy hex'
      · rw [dropDupFyKeepFirst, if_neg (fun hd => hf (of_decide_eq_true hd))]
        by_cases hfy : fyv f = y
        · rw [List.countP_cons_of_pos _ _ (by simpa using hfy)]
          rw [dropDupFy_countP_zero y rest (fyv f :: seen)
            (by rw [hfy]; exact List.mem_cons_self _ _)]
        · rw [List.countP_cons_of_neg _ _ (by simpa using hfy)]
          have hex' : ∃ x ∈ rest, fyv x = y := by
            rcases hex with ⟨x, hx, hxy⟩
            rcases List.mem_cons.mp hx with rfl | hm
            · exact absurd hxy hfy
            · exact ⟨x, hm, hxy⟩
          exact dropDupFy_countP_one y rest (fyv f :: seen)
            (by
              intro hmem
              rcases List.mem_cons.mp hmem with hEq | hm
              · exact hfy hEq.symm
              · exact hy hm) hex'

/-- The row kept for a fiscal year is `bestRowLe`-below every input row of
that fiscal year (the input being sorted). -/
theorem dropDupFy_first_min :
    ∀ (l : List Fact) (seen : List Int) (r : Fact),
      l.Pairwise (fun a b => bestRowLe a b = true) →
      r ∈ dropDupFyKeepFirst l seen →
      ∀ g ∈ l, fyv g = fyv r → bestRowLe r g = true
  | [], _, _, _, hr, _ => absurd hr (List.not_mem_nil _)
  | f :: rest, seen, r, hpw, hr, g => by
      rcases List.pairwise_cons.mp hpw with ⟨hf, hrest⟩
      intro hg hgy
      by_cases hfs : fyv f ∈ seen
      · rw [dropDupFyKeepFirst, if_pos (decide_eq_true hfs)] at hr
        have hrn := dropDupFy_not_seen rest seen r hr
        rcases List.mem_cons.mp hg with rfl | hm
        · exact absurd (hgy ▸ hfs) hrn
        · exact dropDupFy_first_min rest seen r hrest hr g hm hgy
      · rw [dropDupFyKeepFirst, if_neg (fun hd => hfs (of_decide_eq_true hd))] at hr
        rcases List.mem_cons.mp hr with rfl | hrm
        · rcases List.mem_cons.mp hg with rfl | hm
          · exact bestRowLe_refl _
          · exact hf g hm
        · rcases List.mem_cons.mp hg with rfl | hm
          · exfalso
            have hrn := dropDupFy_not_seen rest (fyv g :: seen) r hrm
            apply hrn
            rw [← hgy]
            exact List.mem_cons_self _ _
          · exact dropDupFy_first_min rest _ r hrest hrm g hm hgy

/-- C7: the annual-table builder raises if and only if the input fact
table lacks at least one of the six mandatory columns; with all six
present it never raises, whatever the rows contain. -/
theorem c7_mandatory_columns_iff :
    ∀ (df : NormDF) (specs : List ConceptSpec) (cfg : FinancialsConfig),
      exceptIsError (build_annual_financials_table df specs cfg) = true ↔
        ¬ (∀ c ∈ requiredColsSorted, c ∈ df.cols) := by
  intro df specs cfg
  unfold build_annual_financials_table
  by_cases h : (requiredColsSorted.filter (fun c => decide (c ∉ df.cols))) = []
  · have hcols : ∀ c ∈ requiredColsSorted, c ∈ df.cols := by
      intro c hc
      have := List.filter_eq_nil_iff.mp h c hc
      simpa using this
    simp only [h, List.isEmpty_nil, Bool.not_true, Bool.false_eq_true, if_false]
    constructor
    · intro habs
      exfalso
      revert habs
      split <;> simp [exceptIsError]
    · intro habs
      exact absurd hcols habs
  · have hie : (requiredColsSorted.filter (fun c => decide (c ∉ df.cols))).isEmpty = false := by
      simp only [List.isEmpty_eq_false_iff_exists_mem]
      exact List.exists_mem_of_ne_nil _ h
    simp only [hie, Bool.not_false, if_true]
    constructor
    · intro _ hall
      rcases List.exists_mem_of_ne_nil _ h with ⟨c, hc⟩
      rcases List.mem_filter.mp hc with ⟨h1, h2⟩
      exact (by simpa using h2 : c ∉ df.cols) (hall c h1)
    · intro _
      rfl

/-- A row that is `bestRowLe`-below another row of the same fiscal year is
not strictly less preferred under the spec's stated order. -/
theorem not_claimPrefers_of_le (r g : Fact) (h : bestRowLe r g = true)
    (hfy : fyv r = fyv g) : ¬ claimPrefers g r := by
  rw [bestRowLe_iff] at h
  intro hcp
  unfold claimPrefers at hcp
  rcases hfr : r.filed with _ | fr <;> rcases hfg : g.filed with _ | fg <;>
    cases hqr : is_q4 r <;> cases hqg : is_q4 g <;>
    simp only [q4Rank, filedNoneRank, negFiledDays, filedLt, filedEqv, hfr, hfg,
      hqr, hqg, if_true, if_false, Bool.false_eq_true, Bool.true_eq_false,
      and_false, false_and, and_true, true_and, or_false, false_or] at h hcp <;>
    omega

/-- C1: for every fiscal year with at least one row carrying fiscal year,
end date and value, best-row-per-fiscal-year selection keeps exactly one
row of that fiscal year, and no valid candidate row of the same fiscal
year is strictly preferred to the kept row under the stated total order
(year gap, quarters = 4, span with instants as −1, filing date, end
date). -/
theorem c1_best_row_per_fy_unique_max :
    ∀ (df : List Fact) (y : Int),
      (∃ f ∈ df, validRow f = true ∧ fyv f = y) →
      List.countP (fun r => decide (fyv r = y)) (_select_best_row_per_fy df) = 1 ∧
      (∀ r ∈ _select_best_row_per_fy df, fyv r = y →
        ∀ g ∈ df, validRow g = true → fyv g = y → ¬ claimPrefers g r) := by
  intro df y hex
  obtain ⟨f0, hf0, hv0, hy0⟩ := hex
  have hdfne : df.isEmpty = false := by
    rw [List.isEmpty_eq_false_iff_exists_mem]
    exact ⟨f0, hf0⟩
  have hdne : (df.filter validRow).isEmpty = false := by
    rw [List.isEmpty_eq_false_iff_exists_mem]
    exact ⟨f0, List.mem_filter.mpr ⟨hf0, hv0⟩⟩
  have hsel : _select_best_row_per_fy df =
      dropDupFyKeepFirst ((df.filter validRow).mergeSort bestRowLe) [] := by
    unfold _select_best_row_per_fy
    simp only [hdfne, hdne, Bool.false_eq_true, if_false]
  have hpw : ((df.filter validRow).mergeSort bestRowLe).Pairwise
      (fun a b => bestRowLe a b = true) :=
    List.sorted_mergeSort bestRowLe_trans bestRowLe_total (df.filter validRow)
  constructor
  · rw [hsel]
    apply dropDupFy_countP_one
    · exact List.not_mem_nil y
    · refine ⟨f0, ?_, hy0⟩
      rw [List.mem_mergeSort]
      exact List.mem_filter.mpr ⟨hf0, hv0⟩
  · intro r hr hry g hg hvg hgy
    rw [hsel] at hr
    have hle : bestRowLe r g = true := by
      apply dropDupFy_first_min _ [] r hpw hr g
      · rw [List.mem_mergeSort]
        exact List.mem_filter.mpr ⟨hg, hvg⟩
      · rw [hgy, hry]
    exact not_claimPrefers_of_le r g hle (by rw [hry, hgy])

/-- Witness for C1 at a concrete two-row fiscal year (2022): one row is
kept and it is maximal. -/
theorem c1_witness :
    (∃ f ∈ [factQ4_365, factQ2_181], validRow f = true ∧ fyv f = 2022) ∧
    (List.countP (fun r => decide (fyv r = 2022))
        (_select_best_row_per_fy [factQ4_365, factQ2_181]) = 1 ∧
      (∀ r ∈ _select_best_row_per_fy [factQ4_365, factQ2_181], fyv r = 2022 →
        ∀ g ∈ [factQ4_365, factQ2_181], validRow g = true → fyv g = 2022 →
          ¬ claimPrefers g r)) :=
  ⟨by decide, c1_best_row_per_fy_unique_max [factQ4_365, factQ2_181] 2022 (by decide)⟩

/-- Looking a key up in the pivot cells of a row recovers the pivot
value, provided the key is one of the pivot columns. -/
theorem lookup_vals (v : String → Option ℚ) (k : String) :
    ∀ ns : List String,
      (ns.filterMap (fun n => (v n).map (fun q => (n, q)))).lookup k =
        if k ∈ ns then v k else none
  | [] => by simp
  | n :: ns => by
      rw [List.filterMap_cons]
      rcases hv : v n with _ | q
      · simp only [Option.map_none']
        rw [lookup_vals v k ns]
        by_cases hk : k = n
        · subst hk
          by_cases hm : k ∈ ns <;> simp [hm, hv]
        · simp [List.mem_cons, hk]
      · simp only [Option.map_some']
        by_cases hk : k = n
        · subst hk
          simp [hv]
        · rw [List.lookup_cons]
          have hbeq : (k == n) = false := by
            simpa using hk
          rw [hbeq]
          rw [lookup_vals v k ns]
          simp [List.mem_cons, hk]

/-- Membership in an `insertFy` result. -/
theorem mem_insertFy (y z : Int) : ∀ l : List Int, z ∈ insertFy y l → z = y ∨ z ∈ l
  | [], h => by
      unfold insertFy at h
      rcases List.mem_cons.mp h with rfl | hm
      · exact Or.inl rfl
      · exact absurd hm (List.not_mem_nil z)
  | x :: xs, h => by
      unfold insertFy at h
      by_cases h1 : y < x
      · rw [if_pos h1] at h
        rcases List.mem_cons.mp h with rfl | hm
        · exact Or.inl rfl
        · exact Or.inr hm
      · rw [if_neg h1] at h
        by_cases h2 : y = x
        · rw [if_pos h2] at h
          exact Or.inr h
        · rw [if_neg h2] at h
          rcases List.mem_cons.mp h with rfl | hm
          · exact Or.inr (List.mem_cons_self _ _)
          · rcases mem_insertFy y z xs hm with h3 | h3
            · exact Or.inl h3
            · exact Or.inr (List.mem_cons_of_mem _ h3)

/-- `insertFy` preserves strict sortedness. -/
theorem pairwise_insertFy (y : Int) : ∀ l : List Int,
    l.Pairwise (· < ·) → (insertFy y l).Pairwise (· < ·)
  | [], _ => by
      unfold insertFy
      exact List.pairwise_singleton _ _
  | x :: xs, h => by
      rcases List.pairwise_cons.mp h with ⟨hx, hxs⟩
      unfold insertFy
      by_cases h1 : y < x
      · rw [if_pos h1]
        refine List.Pairwise.cons ?_ h
        intro z hz
        rcases List.mem_cons.mp hz with rfl | hm
        · exact h1
        · exact lt_trans h1 (hx z hm)
      · rw [if_neg h1]
        by_cases h2 : y = x
        · rw [if_pos h2]
          exact h
        · rw [if_neg h2]
          have hxy : x < y := lt_of_le_of_ne (not_lt.mp h1) (fun hEq => h2 hEq.symm)
          refine List.Pairwise.cons ?_ (pairwise_insertFy y xs hxs)
          intro z hz
          rcases mem_insertFy y z xs hz with rfl | hm
          · exact hxy
          · exact hx z hm

/-- The pivot's fiscal-year index is strictly increasing. -/
theorem sortedUniqueFys_pairwise : ∀ l : List Int,
    (sortedUniqueFys l).Pairwise (· < ·)
  | [] => List.Pairwise.nil
  | x :: xs => pairwise_insertFy x (sortedUniqueFys xs) (sortedUniqueFys_pairwise xs)

/-- The fiscal years of the generated wide rows are the pivot index. -/
theorem mkRows_map_fy (long : List SRow) (names : List String) :
    ∀ (fys : List Int) (prev : Option Int),
      (mkRows long names prev fys).map (fun r => r.fy) = fys
  | [], _ => rfl
  | y :: rest, prev => by
      rw [mkRows, List.map_cons, mkRows_map_fy long names rest (some y)]
      rfl

/-- The first generated wide row has no `revenue_yoy` (`pct_change` of the
first row). -/
theorem mkRows_head_yoy (long : List SRow) (names : List String)
    (fys : List Int) (r : WideRow)
    (h : (mkRows long names none fys).head? = some r) : r.revenue_yoy = none := by
  cases fys with
  | nil => exact absurd h (by rw [mkRows]; simp)
  | cons y rest =>
      rw [mkRows] at h
      rw [List.head?_cons, Option.some.injEq] at h
      subst h
      unfold mkWideRow
      by_cases hrev : "revenue" ∈ names
      · simp [hrev]
      · simp [hrev]

/-- Adjacent generated rows satisfy the `pct_change` relation: the later
row's growth divides its revenue cell by the earlier row's. -/
theorem mkRows_chain (long : List SRow) (names : List String) :
    ∀ (fys : List Int) (prev : Option Int),
      (mkRows long names prev fys).Chain' (yoyStep names)
  | [], _ => by
      rw [mkRows]
      exact List.chain'_nil
  | [y], _ => by
      rw [mkRows, mkRows]
      exact List.chain'_singleton _
  | y1 :: y2 :: rest, prev => by
      rw [mkRows, mkRows, List.chain'_cons]
      constructor
      · show yoyStep names (mkWideRow long names prev y1) (mkWideRow long names (some y1) y2)
        unfold yoyStep
        have hb : (mkWideRow long names (some y1) y2).vals.lookup "revenue" =
            if "revenue" ∈ names then pivotVal long y2 "revenue" else none := by
          unfold mkWideRow
          exact lookup_vals (fun n => pivotVal long y2 n) "revenue" names
        have ha : (mkWideRow long names prev y1).vals.lookup "revenue" =
            if "revenue" ∈ names then pivotVal long y1 "revenue" else none := by
          unfold mkWideRow
          exact lookup_vals (fun n => pivotVal long y1 n) "revenue" names
        rw [hb, ha]
        by_cases hrev : "revenue" ∈ names
        · simp only [hrev, if_true]
          unfold mkWideRow
          simp only [decide_eq_true_eq, hrev, if_true]
        · simp only [hrev, if_false]
          unfold mkWideRow
          simp only [decide_eq_true_eq, hrev, if_false]
      · rw [← mkRows]
        exact mkRows_chain long names (y2 :: rest) (some y1)

/-- C5 amended: in every built Annual Table, rows are strictly ascending
in fiscal year, the first row's `revenue_yoy` is missing, and every later
row's `revenue_yoy` equals (its revenue ÷ the *previous table row's*
revenue) − 1 when both cells are present (and is missing otherwise,
including when the table has no revenue column) — the previous table row
being the previous fiscal year present in the table, not necessarily
fiscal year t − 1. -/
theorem c5_amended_revenue_yoy :
    ∀ (df : NormDF) (specs : List ConceptSpec) (cfg : FinancialsConfig) (w : Wide),
      build_annual_financials_table df specs cfg = Except.ok w →
      w.rows.Pairwise (fun a b => a.fy < b.fy) ∧
      (∀ r, w.rows.head? = some r → r.revenue_yoy = none) ∧
      w.rows.Chain' (yoyStep w.names) := by
  intro df specs cfg w h
  by_cases h1 : (requiredColsSorted.filter (fun c => decide (c ∉ df.cols))).isEmpty
  · by_cases h2 : (seriesAndMap df.rows specs cfg.last_n_years).1.isEmpty
    · have hw : w = ⟨[], [], []⟩ := by
        unfold build_annual_financials_table at h
        simp only [h1, h2, Bool.not_true, Bool.false_eq_true, if_false, if_true,
          Except.ok.injEq] at h
        exact h.symm
      subst hw
      exact ⟨List.Pairwise.nil, by simp, List.chain'_nil⟩
    · have hw : w =
          ⟨((seriesAndMap df.rows specs cfg.last_n_years).1.flatten.map
              (fun r => r.name)).dedup,
           mkRows (seriesAndMap df.rows specs cfg.last_n_years).1.flatten
             (((seriesAndMap df.rows specs cfg.last_n_years).1.flatten.map
               (fun r => r.name)).dedup)
             none
             (sortedUniqueFys ((seriesAndMap df.rows specs cfg.last_n_years).1.flatten.map
               (fun r => r.fy))),
           (seriesAndMap df.rows specs cfg.last_n_years).2⟩ := by
        unfold build_annual_financials_table at h
        simp only [h1, h2, Bool.not_true, Bool.false_eq_true, if_false,
          Except.ok.injEq] at h
        exact h.symm
      subst hw
      refine ⟨?_, ?_, ?_⟩
      · have hmap := mkRows_map_fy
          (seriesAndMap df.rows specs cfg.last_n_years).1.flatten
          (((seriesAndMap df.rows specs cfg.last_n_years).1.flatten.map
            (fun r => r.name)).dedup)
          (sortedUniqueFys ((seriesAndMap df.rows specs cfg.last_n_years).1.flatten.map
            (fun r => r.fy)))
          none
        have hpw := sortedUniqueFys_pairwise
          ((seriesAndMap df.rows specs cfg.last_n_years).1.flatten.map (fun r => r.fy))
        rw [← hmap] at hpw
        exact List.pairwise_map.mp hpw
      · intro r hr
        exact mkRows_head_yoy _ _ _ r hr
      · exact mkRows_chain _ _ _ _
  · exfalso
    rw [Bool.not_eq_true] at h1
    unfold build_annual_financials_table at h
    simp only [h1, Bool.not_false, if_true] at h
    exact Except.noConfusion h

unseal List.merge List.mergeSort in
/-- C5 counterexample: the table built from revenue facts for fiscal
years 2019 and 2021 (2020 absent) contains a revenue column and no row
for fiscal year 2020, yet the fiscal-2021 row's `revenue_yoy` is
*present* (it equals 150/100 − 1 = 1/2, dividing by fiscal 2019's
revenue), where the claim requires it to be missing because the prior
fiscal year 2020's revenue is missing. -/
theorem c5_counterexample :
    exceptIsError (build_annual_financials_table c5Df [specRevOnly] {}) = false ∧
    c5Wide.names = ["revenue"] ∧
    c5Wide.rows.countP (fun r => decide (r.fy = 2020)) = 0 ∧
    (c5Wide.rows.find? (fun r => decide (r.fy = 2021))).map
      (fun r => (r.revenue_yoy).isSome) = some true ∧
    (c5Wide.rows.find? (fun r => decide (r.fy = 2021))).map
      (fun r => r.revenue_yoy) = some (some ((150 : ℚ) / 100 - 1)) :=
  ⟨rfl, rfl, rfl, rfl, rfl⟩

unseal List.merge List.mergeSort in
/-- Witness for the amended C5, applying it to the concrete
non-consecutive table. -/
theorem c5_witness :
    c5Wide.rows.Pairwise (fun a b => a.fy < b.fy) ∧
    (∀ r, c5Wide.rows.head? = some r → r.revenue_yoy = none) ∧
    c5Wide.rows.Chain' (yoyStep c5Wide.names) :=
  c5_amended_revenue_yoy c5Df [specRevOnly] {} c5Wide rfl

end SecXbrl
